import Mathlib

/-
  Verification of the argparse option-parsing engine.

  The repository ships the public header `src/argparse.h` (types, enums and
  option macros); the parser engine itself (`argparse.c`) is not part of the
  sources, so the engine below is modelled from the design specification
  (spec.md sections 3, 4.2, 4.2.1, 4.2.2, 4.2.3, 4.2.4, 7).  Declarations
  that mirror the header (`argparse_option_type`, `argparse_option_flags`,
  `argparse_flag`, `OPT_END`, `OPT_HELP`) follow the header directly.

  Tokens are modelled as lists of characters, destination slots as a total
  map from slot identifiers to cell values, and the engine as a recursive
  token-consumption loop returning the final destinations together with a
  discriminated outcome (success with positionals, fatal error, or the
  distinguished help-requested signal).
-/

/-- Token of the command line, a C string modelled as a list of characters. -/
abbrev Tok := List Char

/-- Mirrors enum argparse_option_type from src/argparse.h. -/
inductive ArgparseOptionType where
  | ARGPARSE_OPT_END
  | ARGPARSE_OPT_GROUP
  | ARGPARSE_OPT_BOOLEAN
  | ARGPARSE_OPT_BIT
  | ARGPARSE_OPT_INTEGER
  | ARGPARSE_OPT_STRING
deriving DecidableEq

/-- Mirrors enum argparse_option_flags from src/argparse.h: OPT_NONEG = 1
disables negation for the option carrying it. -/
def OPT_NONEG : Nat := 1

/-- Mirrors enum argparse_flag from src/argparse.h:
ARGPARSE_STOP_AT_NON_OPTION = 1. -/
def ARGPARSE_STOP_AT_NON_OPTION : Nat := 1

/-- Built-in callbacks; argparse_help_cb is declared in src/argparse.h.
Modelled from the spec: a callback is a tagged action invoked after the
value (if any) is stored; it may request cooperative termination
(stop_cb) or the distinguished help outcome (argparse_help_cb). -/
inductive ArgparseCallback where
  | argparse_help_cb
  | stop_cb
deriving DecidableEq

/-- Mirrors struct argparse_option from src/argparse.h.  The destination
`value` is a pointer in C, modelled as an optional slot identifier
(none models NULL); `data` models the intptr_t payload (the bit for
ARGPARSE_OPT_BIT). -/
structure ArgparseOption where
  type : ArgparseOptionType
  short_name : Option Char
  long_name : Option Tok
  value : Option Nat
  help : Tok
  callback : Option ArgparseCallback
  data : Int
  flags : Nat

/-- Mirrors the OPT_END() macro from src/argparse.h: the terminator entry. -/
def OPT_END : ArgparseOption :=
  ⟨.ARGPARSE_OPT_END, none, none, none, [], none, 0, 0⟩

/-- Mirrors the OPT_HELP() macro from src/argparse.h:
OPT_BOOLEAN('h', "help", NULL, "show this help message and exit",
argparse_help_cb). -/
def OPT_HELP : ArgparseOption :=
  ⟨.ARGPARSE_OPT_BOOLEAN, some 'h', some ("help".toList), none,
   ("show this help message and exit".toList), some .argparse_help_cb, 0, 0⟩

/-- Value held by one destination cell: boolean flag cell, bit-mask cell,
integer cell or string cell (spec section 3, OptionDescriptor.destination). -/
inductive CellValue where
  | boolVal (b : Bool)
  | bitsVal (m : Nat)
  | intVal (n : Int)
  | strVal (s : Tok)
deriving DecidableEq

/-- Destination state: a total map from slot identifiers to cell values. -/
abbrev Dests := Nat → CellValue

/-- Write one destination cell. -/
def setCell (d : Dests) (i : Nat) (v : CellValue) : Dests :=
  fun j => if j = i then v else d j

/-- Read a bit-mask cell, defaulting to 0 on a differently-typed cell. -/
def getBits (v : CellValue) : Nat :=
  match v with
  | .bitsVal m => m
  | _ => 0

/-- Error taxonomy of the engine (spec section 7). -/
inductive ParseError where
  | UnknownOption (token : Tok)
  | AmbiguousOption (pfx : Tok) (candidates : List Tok)
  | MissingValue (opt : Tok)
  | InvalidInteger (opt : Tok) (text : Tok)
deriving DecidableEq

/-- Discriminated outcome of a parse call (spec section 6): success with the
positional list, a fatal error, or the distinguished help-requested
signal, which is neither success nor failure. -/
inductive ParseOutcome where
  | ok (positionals : List Tok)
  | err (e : ParseError)
  | helpRequested
deriving DecidableEq

/-- Result of applying one option token (or cluster) to the state: either
continue with updated destinations (recording whether the next whole token
was consumed as a value, and whether a callback requested termination),
or a fatal error, or the help short-circuit.  Destinations written before
the failure point are carried in the err and help results (spec section 7:
no rollback). -/
inductive StepResult where
  | ok (d : Dests) (consumedNext : Bool) (sreq : Bool)
  | err (d : Dests) (e : ParseError)
  | help (d : Dests)

/-- Boolean test that p is a prefix of s, on character lists. -/
def leadsWith : List Char → List Char → Bool
  | [], _ => true
  | _ :: _, [] => false
  | p :: ps, s :: ss => p == s && leadsWith ps ss

/-- Does the token start with a dash (option-like)? -/
def isOptionLike (tok : Tok) : Bool :=
  match tok with
  | '-' :: _ => true
  | _ => false

/-- Split a long-option remainder at the first = into name and inline value
(spec section 4.2.1: "If the remainder contains =, split into name and
inline_value; else inline_value is absent"). -/
def splitEq : List Char → List Char × Option (List Char)
  | [] => ([], none)
  | c :: cs =>
    if c = '=' then ([], some cs)
    else
      let r := splitEq cs
      (c :: r.1, r.2)

/-- Is the descriptor a matchable option (not the terminator, not a group
header)?  Spec section 4.1. -/
def activeOpt (o : ArgparseOption) : Bool :=
  match o.type with
  | .ARGPARSE_OPT_END => false
  | .ARGPARSE_OPT_GROUP => false
  | _ => true

/-- Modelled from the spec (section 4.1, argparse.c absent): first
non-terminator, non-group descriptor whose short_name equals c. -/
def find_short (opts : List ArgparseOption) (c : Char) : Option ArgparseOption :=
  opts.find? (fun o => activeOpt o && o.short_name == some c)

/-- Does the candidate long name start with the queried name? -/
def longHasPfx (name : Tok) (ln : Option Tok) : Bool :=
  match ln with
  | none => false
  | some l => leadsWith name l

/-- The prefix-match candidates for a long-option name: matchable
descriptors whose long_name starts with the queried name. -/
def candidatesOf (opts : List ArgparseOption) (name : Tok) : List ArgparseOption :=
  opts.filter (fun o => activeOpt o && longHasPfx name o.long_name)

/-- Modelled from the spec (section 4.1, argparse.c absent): exact match on
long_name; if allowPfx and no exact match exists, the unique descriptor
whose long_name starts with name, two or more candidates signalling
ambiguity (the error carries the candidates' long names). -/
def find_long (opts : List ArgparseOption) (name : Tok) (allowPfx : Bool) :
    Except (List Tok) (Option ArgparseOption) :=
  match opts.find? (fun o => activeOpt o && o.long_name == some name) with
  | some o => .ok (some o)
  | none =>
    if allowPfx then
      match candidatesOf opts name with
      | [] => .ok none
      | [o] => .ok (some o)
      | cands => .error (cands.filterMap (fun o => o.long_name))
    else .ok none

/-- Smallest value of the C int destination width. -/
def intMin : Int := -(2 ^ 31)

/-- Largest value of the C int destination width. -/
def intMax : Int := 2 ^ 31 - 1

/-- Numeric value of one digit character, off-range characters mapping to a
sentinel ≥ 16 so that the base test rejects them. -/
def digitVal (c : Char) : Nat :=
  if '0' ≤ c ∧ c ≤ '9' then c.toNat - '0'.toNat
  else if 'a' ≤ c ∧ c ≤ 'f' then c.toNat - 'a'.toNat + 10
  else if 'A' ≤ c ∧ c ≤ 'F' then c.toNat - 'A'.toNat + 10
  else 16

/-- Accumulate the value of a digit string in the given base, rejecting any
character that is not a digit of the base. -/
def digitsToNat (base : Nat) : List Char → Nat → Option Nat
  | [], acc => some acc
  | c :: cs, acc =>
    if digitVal c < base then digitsToNat base cs (acc * base + digitVal c)
    else none

/-- Modelled from the spec (section 4.2.3, argparse.c absent): magnitude of
an integer literal, base 10 by default, base 16 after a 0x / 0X prefix,
base 8 after a leading 0 (strtol-style base detection); the whole text
must be consumed and at least one digit is required (a bare 0x is
rejected; a bare 0 is the octal literal zero). -/
def parseUnsigned (cs : List Char) : Option Nat :=
  match cs with
  | [] => none
  | '0' :: 'x' :: rest => if rest = [] then none else digitsToNat 16 rest 0
  | '0' :: 'X' :: rest => if rest = [] then none else digitsToNat 16 rest 0
  | '0' :: rest => digitsToNat 8 rest 0
  | cs => digitsToNat 10 cs 0

/-- Modelled from the spec (section 4.2.3, argparse.c absent): a signed,
optionally base-prefixed integer literal: an optional sign followed by an
unsigned literal. -/
def parseInteger (cs : List Char) : Option Int :=
  match cs with
  | '-' :: rest => (parseUnsigned rest).map (fun n => -(n : Int))
  | '+' :: rest => (parseUnsigned rest).map (fun n => (n : Int))
  | _ => (parseUnsigned cs).map (fun n => (n : Int))

/-- Modelled from the spec (section 4.2.3, argparse.c absent): store for the
no-argument kinds.  Boolean writes true (false if negated); BitFlag sets
(clears if negated) the descriptor's data bits in the mask cell, leaving
the other bits untouched.  A NULL destination stores nothing. -/
def storeKind (o : ArgparseOption) (negated : Bool) (d : Dests) : Dests :=
  match o.value with
  | none => d
  | some i =>
    match o.type with
    | .ARGPARSE_OPT_BOOLEAN => setCell d i (.boolVal (!negated))
    | .ARGPARSE_OPT_BIT =>
      let m := getBits (d i)
      let b := o.data.toNat
      setCell d i (.bitsVal (if negated then m ^^^ (m &&& b) else m ||| b))
    | _ => d

/-- Modelled from the spec (section 4.2.3, argparse.c absent): store for the
value-taking kinds.  String stores the text verbatim; Integer parses the
text as a signed optionally base-prefixed literal, rejects non-integers
with InvalidInteger naming the text, and rejects values that overflow the
destination's integer width (reported as InvalidInteger, never silently
truncated).  A NULL destination stores nothing. -/
def storeArg (o : ArgparseOption) (text : Tok) (optName : Tok) (d : Dests) :
    Except ParseError Dests :=
  match o.type with
  | .ARGPARSE_OPT_STRING =>
    match o.value with
    | none => .ok d
    | some i => .ok (setCell d i (.strVal text))
  | .ARGPARSE_OPT_INTEGER =>
    match parseInteger text with
    | none => .error (.InvalidInteger optName text)
    | some n =>
      if intMin ≤ n ∧ n ≤ intMax then
        match o.value with
        | none => .ok d
        | some i => .ok (setCell d i (.intVal n))
      else .error (.InvalidInteger optName text)
  | _ => .ok d

/-- Modelled from the spec (sections 4.2.1, 4.2.2, 4.2.4, argparse.c
absent): callback dispatch after the store.  No callback continues;
argparse_help_cb short-circuits with the help outcome; stop_cb raises the
stop_requested flag. -/
def afterStore (o : ArgparseOption) (d : Dests) (consumedNext : Bool) : StepResult :=
  match o.callback with
  | none => .ok d consumedNext false
  | some .argparse_help_cb => .help d
  | some .stop_cb => .ok d consumedNext true

/-- Modelled from the spec (section 4.2.1, argparse.c absent): the
non-negated long-option application.  Resolve with prefix matching
(ambiguity is fatal AmbiguousOption naming all candidates, no match is
fatal UnknownOption); Boolean/BitFlag take no value and reject an inline
value; Integer/String consume the inline value if present, else the next
whole token, whose absence is a fatal MissingValue. -/
def resolveAndApply (opts : List ArgparseOption) (nameChars name : Tok)
    (inlineVal : Option Tok) (next : Option Tok) (d : Dests) : StepResult :=
  match find_long opts name true with
  | .error cands => .err d (.AmbiguousOption name cands)
  | .ok none => .err d (.UnknownOption ('-' :: '-' :: nameChars))
  | .ok (some o) =>
    match o.type with
    | .ARGPARSE_OPT_BOOLEAN | .ARGPARSE_OPT_BIT =>
      match inlineVal with
      | some _ => .err d (.UnknownOption ('-' :: '-' :: nameChars))
      | none => afterStore o (storeKind o false d) false
    | .ARGPARSE_OPT_INTEGER | .ARGPARSE_OPT_STRING =>
      match inlineVal with
      | some v =>
        match storeArg o v name d with
        | .error e => .err d e
        | .ok d1 => afterStore o d1 false
      | none =>
        match next with
        | none => .err d (.MissingValue name)
        | some v =>
          match storeArg o v name d with
          | .error e => .err d e
          | .ok d1 => afterStore o d1 true
    | _ => .err d (.UnknownOption ('-' :: '-' :: nameChars))

/-- Modelled from the spec (section 4.2.1, argparse.c absent): the
long-option path.  Strip the = part; if the name begins with no- and the
residual resolves to a Boolean or BitFlag descriptor lacking OPT_NONEG,
store the logically negated value and skip value consumption; otherwise
resolve and apply normally. -/
def longStep (opts : List ArgparseOption) (nameChars : Tok) (next : Option Tok)
    (d : Dests) : StepResult :=
  let p := splitEq nameChars
  let name := p.1
  let inlineVal := p.2
  if leadsWith ['n', 'o', '-'] name then
    match find_long opts (name.drop 3) true with
    | .ok (some o) =>
      if (o.type = .ARGPARSE_OPT_BOOLEAN ∨ o.type = .ARGPARSE_OPT_BIT)
          ∧ o.flags &&& OPT_NONEG = 0 then
        afterStore o (storeKind o true d) false
      else resolveAndApply opts nameChars name inlineVal next d
    | _ => resolveAndApply opts nameChars name inlineVal next d
  else resolveAndApply opts nameChars name inlineVal next d

/-- Modelled from the spec (section 4.2.2, argparse.c absent): unpack a
bundled short-option cluster character by character.  An unmatched
character is a fatal UnknownOption naming it; Boolean/BitFlag store and
continue scanning the same token; Integer/String take the remaining
characters verbatim as the inline value (abandoning the cluster) or the
next whole token, whose absence is a fatal MissingValue. -/
def parseCluster (opts : List ArgparseOption) : List Char → Option Tok → Dests →
    StepResult
  | [], _, d => .ok d false false
  | c :: cs, next, d =>
    match find_short opts c with
    | none => .err d (.UnknownOption [c])
    | some o =>
      match o.type with
      | .ARGPARSE_OPT_BOOLEAN | .ARGPARSE_OPT_BIT =>
        let d1 := storeKind o false d
        match o.callback with
        | some .argparse_help_cb => .help d1
        | some .stop_cb =>
          match parseCluster opts cs next d1 with
          | .ok d2 cn _ => .ok d2 cn true
          | r => r
        | none => parseCluster opts cs next d1
      | .ARGPARSE_OPT_INTEGER | .ARGPARSE_OPT_STRING =>
        match cs with
        | c2 :: cs2 =>
          match storeArg o (c2 :: cs2) [c] d with
          | .error e => .err d e
          | .ok d1 => afterStore o d1 false
        | [] =>
          match next with
          | none => .err d (.MissingValue [c])
          | some v =>
            match storeArg o v [c] d with
            | .error e => .err d e
            | .ok d1 => afterStore o d1 true
      | _ => .err d (.UnknownOption [c])

/-- Modelled from the spec (section 4.2, argparse.c absent): the top-level
token-consumption loop.  Per token, in order: the stop conditions (the
stop_requested flag, or ARGPARSE_STOP_AT_NON_OPTION with a non-dash
token) move this and every remaining token into the positionals; the
literal -- is consumed and every remaining token moves verbatim into the
positionals, unconditionally; a lone - is positional; a --token takes the
long path; a -token takes the cluster path; anything else is positional.
Errors and the help signal halt the loop immediately, keeping the
destinations written so far.  A token already consumed as an option's
value is dropped by the skip flag raised when the step consumed the next
token, so that it is never scanned as an option or positional. -/
def parseLoop (opts : List ArgparseOption) (flags : Nat) :
    List Tok → List Tok → Bool → Bool → Dests → Dests × ParseOutcome
  | [], pos, _, _, d => (d, .ok pos)
  | tok :: rest, pos, sreq, skip, d =>
    if skip then
      parseLoop opts flags rest pos sreq false d
    else if sreq || (!(isOptionLike tok) && (flags &&& ARGPARSE_STOP_AT_NON_OPTION != 0)) then
      (d, .ok (pos ++ tok :: rest))
    else if tok = ['-', '-'] then
      (d, .ok (pos ++ rest))
    else if tok = ['-'] then
      parseLoop opts flags rest (pos ++ [tok]) sreq false d
    else if leadsWith ['-', '-'] tok then
      match longStep opts (tok.drop 2) rest.head? d with
      | .err d1 e => (d1, .err e)
      | .help d1 => (d1, .helpRequested)
      | .ok d1 cn s1 => parseLoop opts flags rest pos s1 cn d1
    else if isOptionLike tok then
      match parseCluster opts (tok.drop 1) rest.head? d with
      | .err d1 e => (d1, .err e)
      | .help d1 => (d1, .helpRequested)
      | .ok d1 cn s1 => parseLoop opts flags rest pos s1 cn d1
    else parseLoop opts flags rest (pos ++ [tok]) sreq false d

/-- Modelled from the spec (sections 4.2, 6, argparse.c absent): the public
entry point, mirroring argparse_parse from src/argparse.h.  Runs the loop
on the caller's token vector from the caller's destination state and
returns the mutated destinations with the discriminated outcome. -/
def argparse_parse (opts : List ArgparseOption) (flags : Nat) (argv : List Tok)
    (d : Dests) : Dests × ParseOutcome :=
  parseLoop opts flags argv [] false false d

/-- A Boolean short/long option with no callback, for the theorems below. -/
def mkBool (c : Option Char) (ln : Option Tok) (slot : Option Nat) (fl : Nat) :
    ArgparseOption :=
  ⟨.ARGPARSE_OPT_BOOLEAN, c, ln, slot, [], none, 0, fl⟩

/-- A BitFlag option with no callback, for the theorems below. -/
def mkBit (c : Option Char) (ln : Option Tok) (slot : Option Nat) (b : Nat)
    (fl : Nat) : ArgparseOption :=
  ⟨.ARGPARSE_OPT_BIT, c, ln, slot, [], none, (b : Int), fl⟩

/-- An Integer option with no callback, for the theorems below. -/
def mkInt (c : Option Char) (ln : Option Tok) (slot : Option Nat) : ArgparseOption :=
  ⟨.ARGPARSE_OPT_INTEGER, c, ln, slot, [], none, 0, 0⟩

/-- A String option with no callback, for the theorems below. -/
def mkStr (c : Option Char) (ln : Option Tok) (slot : Option Nat) : ArgparseOption :=
  ⟨.ARGPARSE_OPT_STRING, c, ln, slot, [], none, 0, 0⟩

/-- Initial destination state used by concrete witnesses. -/
def dInit : Dests := fun _ => .boolVal false

/-- A successful parse only appends to the positional accumulator a
subsequence of the remaining tokens: the loop never reorders, duplicates
or invents positional tokens. -/
theorem parseLoop_ok_sublist (opts : List ArgparseOption) (flags : Nat) :
    ∀ (toks pos : List Tok) (sreq skip : Bool) (d d' : Dests) (ps : List Tok),
      parseLoop opts flags toks pos sreq skip d = (d', .ok ps) →
      ∃ qs, ps = pos ++ qs ∧ qs.Sublist toks := by
  intro toks
  induction toks with
  | nil =>
    intro pos sreq skip d d' ps h
    replace h : ((d, .ok pos) : Dests × ParseOutcome) = (d', .ok ps) := h
    injection h with hd ho
    injection ho with hps
    exact ⟨[], by simp [hps.symm], List.nil_sublist _⟩
  | cons tok rest ih =>
    intro pos sreq skip d d' ps h
    rw [parseLoop.eq_def] at h
    simp only at h
    split at h
    · obtain ⟨qs, hps, hsub⟩ := ih _ _ _ _ _ _ h
      exact ⟨qs, hps, hsub.cons _⟩
    · split at h
      · injection h with hd ho
        injection ho with hps
        exact ⟨tok :: rest, hps.symm, List.Sublist.refl _⟩
      · split at h
        · injection h with hd ho
          injection ho with hps
          exact ⟨rest, hps.symm, (List.Sublist.refl _).cons _⟩
        · split at h
          · obtain ⟨qs, hps, hsub⟩ := ih _ _ _ _ _ _ h
            refine ⟨tok :: qs, by simp [hps], hsub.cons₂ _⟩
          · split at h
            · split at h
              · simp at h
              · simp at h
              · obtain ⟨qs, hps, hsub⟩ := ih _ _ _ _ _ _ h
                exact ⟨qs, hps, hsub.cons _⟩
            · split at h
              · split at h
                · simp at h
                · simp at h
                · obtain ⟨qs, hps, hsub⟩ := ih _ _ _ _ _ _ h
                  exact ⟨qs, hps, hsub.cons _⟩
              · obtain ⟨qs, hps, hsub⟩ := ih _ _ _ _ _ _ h
                refine ⟨tok :: qs, by simp [hps], hsub.cons₂ _⟩

/-- C1: when the loop encounters the literal token --, it consumes that token
and moves every remaining token, in order and unchanged, into the
positional output, whatever the option table, the configuration flags,
the accumulated positionals and the destination state; in particular the
public entry point on a vector starting with -- returns exactly the rest
of the vector as positionals. -/
theorem C1_terminator_unconditional (opts : List ArgparseOption) (flags : Nat)
    (rest pos : List Tok) (d : Dests) :
    parseLoop opts flags (['-', '-'] :: rest) pos false false d
      = (d, .ok (pos ++ rest)) ∧
    argparse_parse opts flags (['-', '-'] :: rest) d = (d, .ok rest) :=
  ⟨rfl, rfl⟩

/-- C2: against a table declaring three Boolean short options a, b, c (with
any destination slots, long names and parse flags), parsing the bundled
token -abc produces exactly the same destination state and outcome as
parsing the three separate tokens -a -b -c. -/
theorem C2_bundling_equivalence (ia ib ic : Nat) (la lb lc : Option Tok)
    (d : Dests) (flags : Nat) :
    argparse_parse
        [mkBool (some 'a') la (some ia) 0, mkBool (some 'b') lb (some ib) 0,
         mkBool (some 'c') lc (some ic) 0, OPT_END] flags
        [['-', 'a', 'b', 'c']] d
      = argparse_parse
        [mkBool (some 'a') la (some ia) 0, mkBool (some 'b') lb (some ib) 0,
         mkBool (some 'c') lc (some ic) 0, OPT_END] flags
        [['-', 'a'], ['-', 'b'], ['-', 'c']] d :=
  rfl

/-- C7: on any successful parse the returned positional list is a
subsequence of the input vector: the tokens classified as positional
appear in the output in exactly their input order. -/
theorem C7_positional_order_preserved (opts : List ArgparseOption) (flags : Nat)
    (argv : List Tok) (d d' : Dests) (ps : List Tok)
    (h : argparse_parse opts flags argv d = (d', .ok ps)) : ps.Sublist argv := by
  obtain ⟨qs, hps, hsub⟩ :=
    parseLoop_ok_sublist opts flags argv [] false false d d' ps h
  simpa [hps] using hsub

/-- Witness for C7 at a concrete input. -/
theorem C7_witness :
    argparse_parse [OPT_END] 0 [['a']] dInit = (dInit, .ok [['a']]) ∧
    List.Sublist [['a']] [['a']] :=
  ⟨rfl, C7_positional_order_preserved [OPT_END] 0 [['a']] dInit dInit [['a']] rfl⟩

/-- C8: each fatal error kind (UnknownOption, AmbiguousOption, MissingValue,
InvalidInteger) halts the loop at the failing token — whatever tokens
follow it are never examined — and the destination written by the option
processed before the failing token (here -a, written to slot i) is
retained in the returned destination state, from any starting state. -/
theorem C8_errors_fatal_no_rollback (i j k : Nat) (d : Dests) (rest : List Tok)
    (flags : Nat) :
    (argparse_parse
        [mkBool (some 'a') (some "alpha".toList) (some i) 0,
         mkInt (some 'n') (some "num".toList) (some j), OPT_END] flags
        (['-', 'a'] :: "--zz".toList :: rest) d
      = (setCell d i (.boolVal true), .err (.UnknownOption "--zz".toList))) ∧
    (argparse_parse
        [mkBool (some 'a') (some "alpha".toList) (some i) 0,
         mkBool none (some "help".toList) (some j) 0,
         mkBool none (some "height".toList) (some k) 0, OPT_END] flags
        (['-', 'a'] :: "--he".toList :: rest) d
      = (setCell d i (.boolVal true),
         .err (.AmbiguousOption "he".toList ["help".toList, "height".toList]))) ∧
    (argparse_parse
        [mkBool (some 'a') (some "alpha".toList) (some i) 0,
         mkInt (some 'n') (some "num".toList) (some j), OPT_END] flags
        [['-', 'a'], ['-', 'n']] d
      = (setCell d i (.boolVal true), .err (.MissingValue ['n']))) ∧
    (argparse_parse
        [mkBool (some 'a') (some "alpha".toList) (some i) 0,
         mkInt (some 'n') (some "num".toList) (some j), OPT_END] flags
        (['-', 'a'] :: "--num=x7".toList :: rest) d
      = (setCell d i (.boolVal true),
         .err (.InvalidInteger "num".toList "x7".toList))) :=
  ⟨rfl, rfl, rfl, rfl⟩

/-- C9: the help outcome is distinct from every successful outcome and every
error outcome (so the caller can distinguish all three from the return
value), and invoking the built-in help callback terminates parsing with
exactly that outcome. -/
theorem C9_help_requested_distinct (d : Dests) (flags : Nat) (more : List Tok) :
    (∀ ps : List Tok, (ParseOutcome.ok ps) ≠ ParseOutcome.helpRequested) ∧
    (∀ e : ParseError, (ParseOutcome.err e) ≠ ParseOutcome.helpRequested) ∧
    (∀ (ps : List Tok) (e : ParseError), (ParseOutcome.ok ps) ≠ ParseOutcome.err e) ∧
    argparse_parse [OPT_HELP, OPT_END] flags (['-', 'h'] :: more) d
      = (d, .helpRequested) :=
  by refine ⟨fun _ h => ?_, fun _ h => ?_, fun _ _ h => ?_, rfl⟩ <;> cases h

/-- Witness for C9 at a concrete input. -/
theorem C9_witness :
    argparse_parse [OPT_HELP, OPT_END] 0 [['-', 'h']] dInit
      = (dInit, .helpRequested) ∧
    (ParseOutcome.ok [] ≠ ParseOutcome.helpRequested) :=
  ⟨(C9_help_requested_distinct dInit 0 []).2.2.2,
   (C9_help_requested_distinct dInit 0 []).1 []⟩

/-- C10: the OPT_HELP macro binds short name h and long name help with a NULL
destination and the built-in callback argparse_help_cb, and parsing -h or
--help against it leaves every destination cell untouched — the whole
effect is the help callback's distinguished outcome. -/
theorem C10_opt_help_writes_nothing (d : Dests) (flags : Nat) (more pos : List Tok) :
    OPT_HELP.short_name = some 'h' ∧
    OPT_HELP.long_name = some "help".toList ∧
    OPT_HELP.value = none ∧
    OPT_HELP.callback = some .argparse_help_cb ∧
    parseLoop [OPT_HELP, OPT_END] flags (['-', 'h'] :: more) pos false false d
      = (d, .helpRequested) ∧
    parseLoop [OPT_HELP, OPT_END] flags ("--help".toList :: more) pos false false d
      = (d, .helpRequested) :=
  ⟨rfl, rfl, rfl, rfl, rfl, rfl⟩

/-- Splitting at = leaves a string without = intact. -/
theorem splitEq_no_eq (cs : List Char) (h : '=' ∉ cs) : splitEq cs = (cs, none) := by
  induction cs with
  | nil => rfl
  | cons c cs ih =>
    rw [splitEq]
    rw [if_neg (by rintro rfl; exact h (List.mem_cons_self _ _))]
    simp [ih (fun hm => h (List.mem_cons_of_mem _ hm))]

/-- One loop iteration drops a token that the previous step consumed as an
option value. -/
theorem parseLoop_skip_step (opts : List ArgparseOption) (flags : Nat) (v : Tok)
    (rest pos : List Tok) (sreq : Bool) (d : Dests) :
    parseLoop opts flags (v :: rest) pos sreq true d
      = parseLoop opts flags rest pos sreq false d := rfl

/-- One loop iteration on a long-option token dispatches to longStep. -/
theorem parseLoop_long_step (opts : List ArgparseOption) (flags : Nat) (c : Char)
    (nc : List Char) (rest pos : List Tok) (d : Dests) :
    parseLoop opts flags (('-' :: '-' :: c :: nc) :: rest) pos false false d
      = (match longStep opts (c :: nc) rest.head? d with
         | .err d1 e => (d1, .err e)
         | .help d1 => (d1, .helpRequested)
         | .ok d1 cn s1 => parseLoop opts flags rest pos s1 cn d1) := rfl

/-- One loop iteration on a short-option token dispatches to parseCluster. -/
theorem parseLoop_cluster_step (opts : List ArgparseOption) (flags : Nat) (c : Char)
    (cs : List Char) (rest pos : List Tok) (d : Dests) (hc : c ≠ '-') :
    parseLoop opts flags (('-' :: c :: cs) :: rest) pos false false d
      = (match parseCluster opts (c :: cs) rest.head? d with
         | .err d1 e => (d1, .err e)
         | .help d1 => (d1, .helpRequested)
         | .ok d1 cn s1 => parseLoop opts flags rest pos s1 cn d1) := by
  have hl : leadsWith ['-', '-'] ('-' :: c :: cs) = false := by
    simp [leadsWith, Ne.symm hc]
  rw [parseLoop.eq_def]
  simp only [isOptionLike, Bool.not_true, Bool.false_and, Bool.or_false]
  rw [if_neg (by simp), if_neg (by simp), if_neg (by simp [hc]), if_neg (by simp), hl,
    if_neg (by simp), if_pos (by simp)]
  rfl

/-- Applying a long --no-name token to the single-Boolean table stores false
without consuming a value token. -/
theorem longStep_bool_neg (name : Tok) (i fl : Nat) (next : Option Tok) (d : Dests)
    (h1 : '=' ∉ name) (h3 : fl &&& OPT_NONEG = 0) :
    longStep [mkBool (some 'f') (some name) (some i) fl, OPT_END]
        ('n' :: 'o' :: '-' :: name) next d
      = .ok (setCell d i (.boolVal false)) false false := by
  have h1' : '=' ∉ ('n' :: 'o' :: '-' :: name) := by simp [h1]
  have h3' : fl &&& 1 = 0 := h3
  rw [longStep, splitEq_no_eq _ h1']
  simp only [longHasPfx, leadsWith, beq_self_eq_true, Bool.and_self, Bool.true_and,
    Bool.and_true, if_true, List.drop_succ_cons, List.drop_zero, find_long, List.find?,
    activeOpt, mkBool, OPT_END, afterStore, storeKind, OPT_NONEG, Bool.not_true, h3]
  rw [if_pos (And.intro (Or.inl trivial) h3')]

/-- Applying a plain long name token to the single-Boolean table stores
true. -/
theorem longStep_bool_set (name : Tok) (i fl : Nat) (next : Option Tok) (d : Dests)
    (h1 : '=' ∉ name) (h2 : leadsWith ['n', 'o', '-'] name = false) :
    longStep [mkBool (some 'f') (some name) (some i) fl, OPT_END] name next d
      = .ok (setCell d i (.boolVal true)) false false := by
  rw [longStep, splitEq_no_eq _ h1]
  simp only [h2, Bool.false_eq_true, if_false, resolveAndApply, find_long, List.find?,
    activeOpt, mkBool, OPT_END, beq_self_eq_true, Bool.and_self, Bool.true_and,
    Bool.and_true, if_true, afterStore, storeKind, Bool.not_false]

/-- Applying a long --no-name token to the single-BitFlag table clears the
descriptor's data bits, leaving the rest of the mask untouched. -/
theorem longStep_bit_neg (name : Tok) (i fl b : Nat) (next : Option Tok) (d : Dests)
    (h1 : '=' ∉ name) (h3 : fl &&& OPT_NONEG = 0) :
    longStep [mkBit none (some name) (some i) b fl, OPT_END]
        ('n' :: 'o' :: '-' :: name) next d
      = .ok (setCell d i
          (.bitsVal (getBits (d i) ^^^ (getBits (d i) &&& b)))) false false := by
  have h1' : '=' ∉ ('n' :: 'o' :: '-' :: name) := by simp [h1]
  have h3' : fl &&& 1 = 0 := h3
  rw [longStep, splitEq_no_eq _ h1']
  simp only [longHasPfx, leadsWith, beq_self_eq_true, Bool.and_self, Bool.true_and,
    Bool.and_true, if_true, List.drop_succ_cons, List.drop_zero, find_long, List.find?,
    activeOpt, mkBit, OPT_END, afterStore, storeKind, OPT_NONEG, h3]
  rw [if_pos (And.intro (Or.inr trivial) h3')]
  simp [Int.toNat_ofNat]

/-- Removing from a mask its overlap with b clears every bit of b. -/
theorem clear_bits_and (m b : Nat) : (m ^^^ (m &&& b)) &&& b = 0 := by
  rw [Nat.and_xor_distrib_right, Nat.and_assoc, Nat.and_self, Nat.xor_self]

/-- C3: for a Boolean or BitFlag descriptor without OPT_NONEG, the long token
--no-name stores the logically negated value — false for Boolean, data
bits cleared for BitFlag — without consuming any value token (the loop
continues on the untouched remaining tokens), and when an earlier token
in the same vector set the Boolean destination true, the later negation
wins: the destination ends false. -/
theorem C3_negation_wins (name : Tok) (i fl b : Nat) (d : Dests) (flags : Nat)
    (more pos : List Tok)
    (h1 : '=' ∉ name) (h2 : leadsWith ['n', 'o', '-'] name = false)
    (h3 : fl &&& OPT_NONEG = 0) (h4 : name ≠ []) :
    parseLoop [mkBool (some 'f') (some name) (some i) fl, OPT_END] flags
        (('-' :: '-' :: 'n' :: 'o' :: '-' :: name) :: more) pos false false d
      = parseLoop [mkBool (some 'f') (some name) (some i) fl, OPT_END] flags
        more pos false false (setCell d i (.boolVal false)) ∧
    (argparse_parse [mkBool (some 'f') (some name) (some i) fl, OPT_END] flags
        [('-' :: '-' :: name), ('-' :: '-' :: 'n' :: 'o' :: '-' :: name)] d).1 i
      = .boolVal false ∧
    (argparse_parse [mkBool (some 'f') (some name) (some i) fl, OPT_END] flags
        [('-' :: '-' :: name), ('-' :: '-' :: 'n' :: 'o' :: '-' :: name)] d).2
      = .ok [] ∧
    parseLoop [mkBit none (some name) (some i) b fl, OPT_END] flags
        (('-' :: '-' :: 'n' :: 'o' :: '-' :: name) :: more) pos false false d
      = parseLoop [mkBit none (some name) (some i) b fl, OPT_END] flags
        more pos false false
        (setCell d i (.bitsVal (getBits (d i) ^^^ (getBits (d i) &&& b)))) ∧
    getBits ((argparse_parse [mkBit none (some name) (some i) b fl, OPT_END] flags
        [('-' :: '-' :: 'n' :: 'o' :: '-' :: name)] d).1 i) &&& b = 0 := by
  obtain ⟨c0, nc0, rfl⟩ := List.exists_cons_of_ne_nil h4
  refine ⟨?_, ?_, ?_, ?_, ?_⟩
  · rw [parseLoop_long_step, longStep_bool_neg _ _ _ _ _ h1 h3]
  · rw [argparse_parse, parseLoop_long_step, longStep_bool_set _ _ _ _ _ h1 h2]
    show (parseLoop _ flags [_] [] false false (setCell d i (.boolVal true))).1 i = _
    rw [parseLoop_long_step, longStep_bool_neg _ _ _ _ _ h1 h3]
    show (setCell (setCell d i (.boolVal true)) i (.boolVal false)) i = _
    simp [setCell]
  · rw [argparse_parse, parseLoop_long_step, longStep_bool_set _ _ _ _ _ h1 h2]
    show (parseLoop _ flags [_] [] false false (setCell d i (.boolVal true))).2 = _
    rw [parseLoop_long_step, longStep_bool_neg _ _ _ _ _ h1 h3]
    rfl
  · rw [parseLoop_long_step, longStep_bit_neg _ _ _ _ _ _ h1 h3]
  · rw [argparse_parse, parseLoop_long_step, longStep_bit_neg _ _ _ _ _ _ h1 h3]
    show getBits ((setCell d i
        (.bitsVal (getBits (d i) ^^^ (getBits (d i) &&& b)))) i) &&& b = 0
    simp only [setCell, if_pos rfl, getBits]
    exact clear_bits_and _ _

/-- Witness for C3 at the concrete option name flag. -/
theorem C3_witness :
    ('=' ∉ "flag".toList) ∧ leadsWith ['n', 'o', '-'] "flag".toList = false ∧
    ((0 : Nat) &&& OPT_NONEG = 0) ∧ "flag".toList ≠ [] ∧
    (argparse_parse [mkBool (some 'f') (some "flag".toList) (some 0) 0, OPT_END] 0
        [('-' :: '-' :: "flag".toList),
         ('-' :: '-' :: 'n' :: 'o' :: '-' :: "flag".toList)] dInit).1 0
      = .boolVal false :=
  ⟨by decide, by decide, by decide, by decide,
   (C3_negation_wins "flag".toList 0 0 1 dInit 0 [] []
      (by decide) (by decide) (by decide) (by decide)).2.1⟩

/-- C5: for a value-taking (String or Integer) short option: characters
remaining in the token after the option character are taken verbatim as
the value and the cluster is abandoned (first conjunct, arbitrary
remaining characters); with no remaining characters the next whole token
is consumed as the value (second conjunct) and the loop continues after
it; with no remaining characters and no further token the parse fails
with MissingValue naming the option (third conjunct); and the spec's
Integer example -n 5 extra stores 5 and leaves extra positional (fourth
conjunct).  The fifth conjunct is the Integer inline form -nTEXT. -/
theorem C5_short_option_value_consumption (i j : Nat) (k : Int) (d : Dests)
    (flags : Nat) (more pos : List Tok) (v : Tok) (c2 : Char) (cs2 : List Char)
    (h5 : parseInteger (c2 :: cs2) = some k)
    (h6 : intMin ≤ k ∧ k ≤ intMax) :
    (parseLoop [mkStr (some 's') none (some i), OPT_END] flags
        (('-' :: 's' :: c2 :: cs2) :: more) pos false false d
      = parseLoop [mkStr (some 's') none (some i), OPT_END] flags
        more pos false false (setCell d i (.strVal (c2 :: cs2)))) ∧
    (parseLoop [mkStr (some 's') none (some i), OPT_END] flags
        (['-', 's'] :: v :: more) pos false false d
      = parseLoop [mkStr (some 's') none (some i), OPT_END] flags
        more pos false false (setCell d i (.strVal v))) ∧
    (parseLoop [mkStr (some 's') none (some i), OPT_END] flags
        [['-', 's']] pos false false d
      = (d, .err (.MissingValue ['s']))) ∧
    (argparse_parse [mkInt (some 'n') (some "count".toList) (some j), OPT_END] 0
        [['-', 'n'], ['5'], "extra".toList] d
      = (setCell d j (.intVal 5), .ok ["extra".toList])) ∧
    (parseLoop [mkInt (some 'n') (some "count".toList) (some j), OPT_END] flags
        (('-' :: 'n' :: c2 :: cs2) :: more) pos false false d
      = parseLoop [mkInt (some 'n') (some "count".toList) (some j), OPT_END] flags
        more pos false false (setCell d j (.intVal k))) := by
  refine ⟨rfl, rfl, rfl, rfl, ?_⟩
  rw [parseLoop_cluster_step _ _ _ _ _ _ _ (by decide)]
  rw [parseCluster]
  simp only [find_short, List.find?, activeOpt, mkInt, OPT_END, beq_self_eq_true,
    Bool.and_self, Bool.true_and, Bool.and_true, storeArg, h5, if_pos h6, afterStore]

/-- Witness for C5 at the concrete inline token -n42. -/
theorem C5_witness :
    parseInteger ['4', '2'] = some 42 ∧
    (intMin ≤ (42 : Int) ∧ (42 : Int) ≤ intMax) ∧
    parseLoop [mkInt (some 'n') (some "count".toList) (some 0), OPT_END] 0
        [['-', 'n', '4', '2']] [] false false dInit
      = parseLoop [mkInt (some 'n') (some "count".toList) (some 0), OPT_END] 0
        [] [] false false (setCell dInit 0 (.intVal 42)) :=
  ⟨by decide, by decide,
   (C5_short_option_value_consumption 0 0 42 dInit 0 [] [] [] '4' ['2']
      (by decide) (by decide)).2.2.2.2⟩

/-- Applying the long token --count=TEXT to the single-Integer table reduces
to the integer store, whose outcome depends only on parsing TEXT. -/
theorem longStep_int_count (i : Nat) (text : Tok) (next : Option Tok) (d : Dests) :
    longStep [mkInt none (some "count".toList) (some i), OPT_END]
        ('c' :: 'o' :: 'u' :: 'n' :: 't' :: '=' :: text) next d
      = (match storeArg (mkInt none (some "count".toList) (some i)) text
            "count".toList d with
         | .error e => .err d e
         | .ok d1 => .ok d1 false false) := rfl

/-- C6: the consumed value text of an Integer option is parsed as a signed,
optionally base-prefixed integer (decimal 42, negative -17, hex 0x2a and
0X2A, octal 052, explicit +9; trailing junk 9a and the empty text are
rejected); a rejected text is a fatal InvalidInteger naming the text (and
the destination is untouched); an accepted in-range value is stored; an
accepted value that overflows the 32-bit destination width is reported as
a fatal InvalidInteger rather than stored truncated. -/
theorem C6_integer_value_semantics (i : Nat) (n : Int) (text : Tok) (d : Dests)
    (flags : Nat) (more pos : List Tok) :
    parseInteger "42".toList = some 42 ∧
    parseInteger "-17".toList = some (-17) ∧
    parseInteger "0x2a".toList = some 42 ∧
    parseInteger "0X2A".toList = some 42 ∧
    parseInteger "052".toList = some 42 ∧
    parseInteger "+9".toList = some 9 ∧
    parseInteger "9a".toList = none ∧
    parseInteger [] = none ∧
    parseInteger "9999999999".toList = some 9999999999 ∧
    (parseInteger text = some n → intMin ≤ n ∧ n ≤ intMax →
      parseLoop [mkInt none (some "count".toList) (some i), OPT_END] flags
          (('-' :: '-' :: 'c' :: 'o' :: 'u' :: 'n' :: 't' :: '=' :: text) :: more)
          pos false false d
        = parseLoop [mkInt none (some "count".toList) (some i), OPT_END] flags
          more pos false false (setCell d i (.intVal n))) ∧
    (parseInteger text = none →
      parseLoop [mkInt none (some "count".toList) (some i), OPT_END] flags
          (('-' :: '-' :: 'c' :: 'o' :: 'u' :: 'n' :: 't' :: '=' :: text) :: more)
          pos false false d
        = (d, .err (.InvalidInteger "count".toList text))) ∧
    (parseInteger text = some n → ¬(intMin ≤ n ∧ n ≤ intMax) →
      parseLoop [mkInt none (some "count".toList) (some i), OPT_END] flags
          (('-' :: '-' :: 'c' :: 'o' :: 'u' :: 'n' :: 't' :: '=' :: text) :: more)
          pos false false d
        = (d, .err (.InvalidInteger "count".toList text))) := by
  refine ⟨by decide, by decide, by decide, by decide, by decide, by decide, by decide,
    by decide, by decide, ?_, ?_, ?_⟩
  · intro ht hr
    rw [parseLoop_long_step, longStep_int_count]
    simp only [storeArg, mkInt, ht, if_pos hr]
  · intro ht
    rw [parseLoop_long_step, longStep_int_count]
    simp only [storeArg, mkInt, ht]
  · intro ht hr
    rw [parseLoop_long_step, longStep_int_count]
    simp only [storeArg, mkInt, ht, if_neg hr]

/-- Witness for C6: the in-range text 42 is stored, and the overflowing text
9999999999 is rejected with InvalidInteger. -/
theorem C6_witness :
    parseInteger "42".toList = some 42 ∧
    (intMin ≤ (42 : Int) ∧ (42 : Int) ≤ intMax) ∧
    parseLoop [mkInt none (some "count".toList) (some 0), OPT_END] 0
        [('-' :: '-' :: 'c' :: 'o' :: 'u' :: 'n' :: 't' :: '=' :: "42".toList)]
        [] false false dInit
      = parseLoop [mkInt none (some "count".toList) (some 0), OPT_END] 0
        [] [] false false (setCell dInit 0 (.intVal 42)) ∧
    parseInteger "9999999999".toList = some 9999999999 ∧
    ¬(intMin ≤ (9999999999 : Int) ∧ (9999999999 : Int) ≤ intMax) ∧
    parseLoop [mkInt none (some "count".toList) (some 0), OPT_END] 0
        [('-' :: '-' :: 'c' :: 'o' :: 'u' :: 'n' :: 't' :: '='
            :: "9999999999".toList)] [] false false dInit
      = (dInit, .err (.InvalidInteger "count".toList "9999999999".toList)) :=
  ⟨by decide, by decide,
   (C6_integer_value_semantics 0 42 "42".toList dInit 0 [] []).2.2.2.2.2.2.2.2.2.1
      (by decide) (by decide),
   by decide, by decide,
   (C6_integer_value_semantics 0 9999999999 "9999999999".toList dInit 0
      [] []).2.2.2.2.2.2.2.2.2.2.2 (by decide) (by decide)⟩

/-- C4: long-option name resolution tries an exact match on long_name first
(first conjunct); with no exact match, a unique prefix candidate is
selected (second conjunct); two or more prefix candidates are an
ambiguity error carrying all the candidates' long names, surfaced by the
parser as a fatal AmbiguousOption (third and fifth conjuncts); no
candidate at all is surfaced as a fatal UnknownOption (fourth and fifth
conjuncts); and on the spec's example table {help, height} the input
--he fails with AmbiguousOption he {help, height} (last conjuncts). -/
theorem C4_long_name_resolution :
    (∀ (opts : List ArgparseOption) (name : Tok),
      (∃ o, o ∈ opts ∧ activeOpt o = true ∧ o.long_name = some name) →
      ∃ o', find_long opts name true = .ok (some o') ∧ activeOpt o' = true ∧
        o'.long_name = some name) ∧
    (∀ (opts : List ArgparseOption) (name : Tok) (o : ArgparseOption),
      (∀ o' ∈ opts, ¬(activeOpt o' = true ∧ o'.long_name = some name)) →
      candidatesOf opts name = [o] →
      find_long opts name true = .ok (some o)) ∧
    (∀ (opts : List ArgparseOption) (name : Tok) (a b : ArgparseOption)
        (cs : List ArgparseOption),
      (∀ o' ∈ opts, ¬(activeOpt o' = true ∧ o'.long_name = some name)) →
      candidatesOf opts name = a :: b :: cs →
      find_long opts name true
        = .error ((a :: b :: cs).filterMap (fun o => o.long_name))) ∧
    (∀ (opts : List ArgparseOption) (name : Tok),
      (∀ o' ∈ opts, ¬(activeOpt o' = true ∧ o'.long_name = some name)) →
      candidatesOf opts name = [] →
      find_long opts name true = .ok none) ∧
    (∀ (opts : List ArgparseOption) (flags : Nat) (c : Char) (nc : List Char)
        (rest pos : List Tok) (d : Dests) (cs : List Tok),
      '=' ∉ (c :: nc) → leadsWith ['n', 'o', '-'] (c :: nc) = false →
      (find_long opts (c :: nc) true = .error cs →
        parseLoop opts flags (('-' :: '-' :: c :: nc) :: rest) pos false false d
          = (d, .err (.AmbiguousOption (c :: nc) cs))) ∧
      (find_long opts (c :: nc) true = .ok none →
        parseLoop opts flags (('-' :: '-' :: c :: nc) :: rest) pos false false d
          = (d, .err (.UnknownOption ('-' :: '-' :: c :: nc))))) ∧
    (find_long [mkBool none (some "help".toList) (some 0) 0,
        mkBool none (some "height".toList) (some 1) 0, OPT_END] "he".toList true
      = .error ["help".toList, "height".toList]) ∧
    (argparse_parse [mkBool none (some "help".toList) (some 0) 0,
        mkBool none (some "height".toList) (some 1) 0, OPT_END] 0
        [['-', '-', 'h', 'e']] dInit
      = (dInit, .err (.AmbiguousOption "he".toList
          ["help".toList, "height".toList]))) := by
  refine ⟨?_, ?_, ?_, ?_, ?_, rfl, rfl⟩
  · rintro opts name ⟨o, ho, hact, hln⟩
    rw [find_long]
    cases hf : opts.find? (fun o => activeOpt o && o.long_name == some name) with
    | some o1 =>
      have hp := List.find?_some hf
      simp only [Bool.and_eq_true, beq_iff_eq] at hp
      exact ⟨o1, rfl, hp.1, hp.2⟩
    | none =>
      exfalso
      have := List.find?_eq_none.mp hf o ho
      simp [hact, hln] at this
  · intro opts name o hne hcand
    have hf : opts.find? (fun o => activeOpt o && o.long_name == some name) = none :=
      List.find?_eq_none.mpr (fun x hx hpx => by
        simp only [Bool.and_eq_true, beq_iff_eq] at hpx
        exact hne x hx hpx)
    rw [find_long, hf, hcand]
    rfl
  · intro opts name a b cs hne hcand
    have hf : opts.find? (fun o => activeOpt o && o.long_name == some name) = none :=
      List.find?_eq_none.mpr (fun x hx hpx => by
        simp only [Bool.and_eq_true, beq_iff_eq] at hpx
        exact hne x hx hpx)
    rw [find_long, hf, hcand]
    rfl
  · intro opts name hne hcand
    have hf : opts.find? (fun o => activeOpt o && o.long_name == some name) = none :=
      List.find?_eq_none.mpr (fun x hx hpx => by
        simp only [Bool.and_eq_true, beq_iff_eq] at hpx
        exact hne x hx hpx)
    rw [find_long, hf, hcand]
    rfl
  · intro opts flags c nc rest pos d cs he hno
    constructor
    · intro herr
      rw [parseLoop_long_step, longStep]
      simp only [splitEq_no_eq _ he, hno, Bool.false_eq_true, if_false,
        resolveAndApply, herr]
    · intro hnone
      rw [parseLoop_long_step, longStep]
      simp only [splitEq_no_eq _ he, hno, Bool.false_eq_true, if_false,
        resolveAndApply, hnone]

/-- Witness for C4: the ambiguous prefix he against the table {help, height}. -/
theorem C4_witness :
    ('=' ∉ ('h' :: ['e'])) ∧
    leadsWith ['n', 'o', '-'] ('h' :: ['e']) = false ∧
    find_long [mkBool none (some "help".toList) (some 0) 0,
        mkBool none (some "height".toList) (some 1) 0, OPT_END] ('h' :: ['e']) true
      = .error ["help".toList, "height".toList] ∧
    parseLoop [mkBool none (some "help".toList) (some 0) 0,
        mkBool none (some "height".toList) (some 1) 0, OPT_END] 0
        [('-' :: '-' :: 'h' :: ['e'])] [] false false dInit
      = (dInit, .err (.AmbiguousOption ('h' :: ['e'])
          ["help".toList, "height".toList])) :=
  ⟨by decide, by decide, rfl,
   (C4_long_name_resolution.2.2.2.2.1
      [mkBool none (some "help".toList) (some 0) 0,
       mkBool none (some "height".toList) (some 1) 0, OPT_END] 0 'h' ['e'] [] []
      dInit ["help".toList, "height".toList] (by decide) (by decide)).1 rfl⟩
